import Mathlib

/-!
Verification development for the portfolio backend
(`backend/controllers/projectController.js`, `backend/routes/projectRoutes.js`,
the user controller, the Cloudinary signature endpoint and the frontend
`utils/throttle.js`), shallowly embedded in Lean.
-/

/-- A JSON/JavaScript value as it can occur in an Express request body
(`req.body`). Numbers are restricted to integers, which covers every value
the normalization code inspects. -/
inductive JValue where
  | jnull
  | jbool (b : Bool)
  | jnum (n : Int)
  | jstr (s : String)
  | jarr (l : List JValue)
  deriving Repr

/-- JavaScript truthiness of a `JValue` (`filter(Boolean)` and `if (x)` tests):
`null`, `false`, `0` and `""` are falsy, arrays are always truthy. -/
def JValue.truthy : JValue → Bool
  | .jnull => false
  | .jbool b => b
  | .jnum n => n != 0
  | .jstr s => s != ""
  | .jarr _ => true

/-- JavaScript truthiness of a possibly absent string field of `req.body`:
`undefined` and `""` are falsy. -/
def truthyStr : Option String → Bool
  | none => false
  | some s => s != ""

/-- Skip JSON whitespace. -/
def skipWs : List Char → List Char
  | c :: rest =>
    if c = ' ' ∨ c = '\t' ∨ c = '\n' ∨ c = '\r' then skipWs rest else c :: rest
  | [] => []

/-- Consume an expected literal character sequence. -/
def dropLit : List Char → List Char → Option (List Char)
  | [], cs => some cs
  | l :: ls, c :: cs => if c = l then dropLit ls cs else none
  | _ :: _, [] => none

/-- Split a leading run of decimal digits off a character list. -/
def takeDigits : List Char → List Char × List Char
  | [] => ([], [])
  | c :: rest =>
    if c.isDigit then
      let (d, r) := takeDigits rest
      (c :: d, r)
    else ([], c :: rest)

/-- Decimal digits to a natural number (`parseInt` on a digit string). -/
def digitsToNat (ds : List Char) : Nat :=
  ds.foldl (fun n c => 10 * n + (c.toNat - '0'.toNat)) 0

/-- Parse the body of a JSON string literal (after the opening quote),
handling the basic escapes. Fuel-indexed for termination. -/
def parseStringChars : Nat → List Char → List Char → Option (String × List Char)
  | 0, _, _ => none
  | _ + 1, [], _ => none
  | fuel + 1, c :: rest, acc =>
    if c = '"' then some (String.mk acc.reverse, rest)
    else if c = '\\' then
      match rest with
      | [] => none
      | e :: rest2 =>
        let esc : Option Char :=
          if e = '"' then some '"'
          else if e = '\\' then some '\\'
          else if e = '/' then some '/'
          else if e = 'n' then some '\n'
          else if e = 't' then some '\t'
          else if e = 'r' then some '\r'
          else none
        match esc with
        | some ec => parseStringChars fuel rest2 (ec :: acc)
        | none => none
    else parseStringChars fuel rest (c :: acc)

mutual

/-- Model of the `JSON.parse` builtin used by the array-field normalization,
restricted to the grammar fragment those fields exercise: `null`, booleans,
integer numbers, strings with basic escapes, and arrays. Returns the parsed
value and the remaining input, or `none` (the JavaScript code observes a
parse failure as a thrown exception). -/
def parseJValue : Nat → List Char → Option (JValue × List Char)
  | 0, _ => none
  | fuel + 1, cs =>
    match skipWs cs with
    | [] => none
    | c :: rest =>
      if c = 'n' then
        match dropLit ['u', 'l', 'l'] rest with
        | some r => some (.jnull, r)
        | none => none
      else if c = 't' then
        match dropLit ['r', 'u', 'e'] rest with
        | some r => some (.jbool true, r)
        | none => none
      else if c = 'f' then
        match dropLit ['a', 'l', 's', 'e'] rest with
        | some r => some (.jbool false, r)
        | none => none
      else if c = '"' then
        match parseStringChars (rest.length + 1) rest [] with
        | some (s, r) => some (.jstr s, r)
        | none => none
      else if c = '[' then
        match skipWs rest with
        | ']' :: r => some (.jarr [], r)
        | r => parseElems fuel r []
      else if c = '-' then
        match takeDigits rest with
        | ([], _) => none
        | (ds, r) => some (.jnum (-(digitsToNat ds : Int)), r)
      else if c.isDigit then
        let (ds, r) := takeDigits (c :: rest)
        some (.jnum (digitsToNat ds), r)
      else none

/-- Parse the comma-separated elements of a JSON array. -/
def parseElems : Nat → List Char → List JValue → Option (JValue × List Char)
  | 0, _, _ => none
  | fuel + 1, cs, acc =>
    match parseJValue fuel cs with
    | none => none
    | some (v, cs2) =>
      match skipWs cs2 with
      | ',' :: r => parseElems fuel r (acc ++ [v])
      | ']' :: r => some (.jarr (acc ++ [v]), r)
      | _ => none

end

/-- `JSON.parse` on a whole string: the parsed value must consume the entire
input (up to trailing whitespace). -/
def jsonParse (s : String) : Option JValue :=
  match parseJValue (2 * s.length + 8) s.toList with
  | some (v, rest) => if skipWs rest = [] then some v else none
  | none => none

/-- First occurrence of a `[digits]` group in a key, as found by the
regular expression match `\x5b(\d+)\x5d` used on body keys: scan for a `[`
followed by at least one digit and a closing `]`; on a failed match attempt
the scan resumes at the next position. -/
def findBracketNum : List Char → Option Nat
  | [] => none
  | '[' :: rest =>
    match takeDigits rest with
    | ([], _) => findBracketNum rest
    | (ds, r) =>
      match r with
      | ']' :: _ => some (digitsToNat ds)
      | _ => findBracketNum rest
  | _ :: rest => findBracketNum rest

/-- Character-list prefix test (first argument is the prefix to look for). -/
def charsBeginWith : List Char → List Char → Bool
  | [], _ => true
  | _ :: _, [] => false
  | a :: as, b :: bs => a == b && charsBeginWith as bs

/-- Model of JavaScript's `key.startsWith(p)` on strings. -/
def strBeginsWith (s p : String) : Bool :=
  charsBeginWith p.toList s.toList

/-- Index extracted from a body key for the `features` array:
the key must start with `features[` and contain a `[digits]` group. -/
def featureIndex (key : String) : Option Nat :=
  if strBeginsWith key "features[" then findBracketNum key.toList else none

/-- Index extracted from a body key for the `tools` array: the controller
tests `tools[` only in the `else` branch of the `features[` test. -/
def toolIndex (key : String) : Option Nat :=
  if strBeginsWith key "features[" then none
  else if strBeginsWith key "tools[" then findBracketNum key.toList else none

/-- The indexed `features[i]` assignments found among the body's keys, in
key order. -/
def featAssignments (extra : List (String × JValue)) : List (Nat × JValue) :=
  extra.filterMap fun p =>
    match featureIndex p.fst with
    | some i => some (i, p.snd)
    | none => none

/-- The indexed `tools[i]` assignments found among the body's keys, in
key order. -/
def toolAssignments (extra : List (String × JValue)) : List (Nat × JValue) :=
  extra.filterMap fun p =>
    match toolIndex p.fst with
    | some i => some (i, p.snd)
    | none => none

/-- The value stored at index `i` after performing the assignments
`arr[i] = v` left to right: the last assignment to `i` wins. -/
def lookupLast (asgn : List (Nat × JValue)) (i : Nat) : Option JValue :=
  match asgn with
  | [] => none
  | (j, v) :: rest =>
    match lookupLast rest i with
    | some w => some w
    | none => if j = i then some v else none

/-- Reading out a JavaScript array built by sparse index assignments:
the defined indices in increasing order, each mapped to its last-assigned
value (holes are skipped by the subsequent `filter`). -/
def sparseToList (asgn : List (Nat × JValue)) : List JValue :=
  (((asgn.map Prod.fst).dedup).insertionSort (· ≤ ·)).filterMap (lookupLast asgn)

/-- `features.filter(Boolean)` applied to the sparse array built from the
indexed assignments: index order, holes gone, falsy values dropped. -/
def reconstructArray (asgn : List (Nat × JValue)) : List JValue :=
  (sparseToList asgn).filter JValue.truthy

/-- An Express request body for the project write endpoints. Named fields are
`Option` (absent = `undefined`); `extra` holds the remaining keys, such as the
indexed `features[0]`, `tools[1]`, … form-data keys, in object key order. -/
structure ReqBody where
  title : Option String := none
  description : Option String := none
  features : Option JValue := none
  tools : Option JValue := none
  extra : List (String × JValue) := []
  cloudinaryVideoUrl : Option String := none
  cloudinaryVideoPublicId : Option String := none
  cloudinaryThumbnailUrl : Option String := none
  cloudinaryThumbnailPublicId : Option String := none
  removeVideo : Option String := none
  removeThumbnail : Option String := none
  deriving Repr

/-- Step one of the controller's array normalization, for `features`/`tools`:
a truthy string value is `JSON.parse`d, and on parse failure replaced by the
one-element array holding the original string. Non-string values pass through. -/
def parseArrayField : Option JValue → Option JValue
  | some (.jstr s) =>
    if s ≠ "" then
      match jsonParse s with
      | some parsed => some parsed
      | none => some (.jarr [.jstr s])
    else some (.jstr s)
  | other => other

/-- Drop the body keys consumed by the indexed-array reconstruction
(the controller `delete`s each matched key). -/
def stripIndexedKeys (extra : List (String × JValue)) : List (String × JValue) :=
  extra.filter fun p => (featureIndex p.fst).isNone && (toolIndex p.fst).isNone

/-- The request normalization performed identically at the top of the JSON and
multipart paths of `addProject` and in `updateProject`: stringified-JSON
fallback for `features`/`tools`, then reconstruction of the indexed
`features[i]`/`tools[i]` keys into arrays (applied only when at least one
indexed key was found, mirroring `features.length > 0`). -/
def normalizeBody (b : ReqBody) : ReqBody :=
  let b1 := { b with
    features := parseArrayField b.features
    tools := parseArrayField b.tools }
  let fa := featAssignments b.extra
  let ta := toolAssignments b.extra
  let b2 := if fa.isEmpty then b1 else
    { b1 with features := some (.jarr (reconstructArray fa)) }
  let b3 := if ta.isEmpty then b2 else
    { b2 with tools := some (.jarr (reconstructArray ta)) }
  { b3 with extra := stripIndexedKeys b.extra }

/-- Modelled from the spec: the Project schema (`models/Project.js` is not in
the source snapshot). Spec section 3: `title` and `description` are required
strings; `features` and `tools` are ordered lists of strings; the Cloudinary
URL/publicId fields are an optional pair each, an absent value stored as the
empty string; `createdAt` is the server-assigned creation timestamp. -/
structure ProjectRec where
  id : String
  title : String := ""
  description : String := ""
  features : List String := []
  tools : List String := []
  cloudinaryVideoUrl : String := ""
  cloudinaryVideoPublicId : String := ""
  cloudinaryThumbnailUrl : String := ""
  cloudinaryThumbnailPublicId : String := ""
  createdAt : Nat := 0
  deriving Repr, DecidableEq

/-- Mongoose cast of a normalized `features`/`tools` value into the schema's
`[String]`, restricted to the value shapes the normalization produces
(string elements are kept, a bare string becomes a singleton). -/
def castStringList : Option JValue → List String
  | some (.jarr l) =>
    l.filterMap fun v =>
      match v with
      | .jstr s => some s
      | _ => none
  | some (.jstr s) => [s]
  | _ => []

/-- Model of `mongoose.Types.ObjectId.isValid` on a string id: a 24-character
hexadecimal string, or any 12-character string (interpreted as raw bytes). -/
def isValidObjectId (s : String) : Bool :=
  s.length == 12 ||
    (s.length == 24 &&
      s.toList.all fun c =>
        c.isDigit || ('a' ≤ c && c ≤ 'f') || ('A' ≤ c && c ≤ 'F'))

/-- `Project.findById`: the stored record with the given id, if any. -/
def findById (store : List ProjectRec) (id : String) : Option ProjectRec :=
  store.find? fun p => p.id == id

/-- The two Cloudinary asset kinds the controller distinguishes
(`deleteVideoFromCloudinary` vs `deleteImageFromCloudinary`). -/
inductive MediaKind where
  | video
  | image
  deriving Repr, DecidableEq

/-- A delete call issued against the media store: which helper was called and
with which publicId. -/
structure MediaCall where
  kind : MediaKind
  publicId : String
  deriving Repr, DecidableEq

/-- Modelled from the spec: the Cloudinary helpers of
`backend/utils/cloudinaryUpload.js`, which is not in the source snapshot.
Spec section 4.2: `deleteAsset(publicId, kind)` is a best-effort removal whose
"failure is logged and swallowed by callers" — so the helper itself propagates
(throws) a failure to its caller; `fails kind publicId` says whether a given
delete call fails. `upload kind file` models the upload helpers: `none` is a
thrown upload error, `some (url, publicId)` a successful upload result. -/
structure MediaEnv where
  fails : MediaKind → String → Bool
  upload : MediaKind → String → Option (String × String)

/-- The files attached to a multipart request (`req.files`), by field name;
a file is identified by an opaque name. -/
structure ReqFiles where
  video : Option String := none
  thumbnail : Option String := none
  deriving Repr, DecidableEq

/-- The observable outcome of a project handler: HTTP status, the record in
the response body (if any), validation error field names, the resulting
store, the media-store delete calls issued, and the ids looked up in the
database (in order). -/
structure HandlerOut where
  status : Nat
  returnedProject : Option ProjectRec := none
  errors : List String := []
  store : List ProjectRec
  mediaCalls : List MediaCall := []
  dbLookups : List String := []
  deriving Repr, DecidableEq

/-- Required-field validation of the Project schema at save time: the names of
the missing required fields (`title`, `description`), as collected by
`extractValidationErrors`. -/
def requiredErrors (title description : String) : List String :=
  (if title = "" then ["title"] else []) ++
    (if description = "" then ["description"] else [])

/-- `new Project(req.body)` on a normalized body: named body fields populate
the schema fields, absent optional strings default to the empty string;
the server assigns the id and the creation timestamp. -/
def mkProject (b : ReqBody) (newId : String) (now : Nat) : ProjectRec :=
  { id := newId
    title := b.title.getD ""
    description := b.description.getD ""
    features := castStringList b.features
    tools := castStringList b.tools
    cloudinaryVideoUrl := b.cloudinaryVideoUrl.getD ""
    cloudinaryVideoPublicId := b.cloudinaryVideoPublicId.getD ""
    cloudinaryThumbnailUrl := b.cloudinaryThumbnailUrl.getD ""
    cloudinaryThumbnailPublicId := b.cloudinaryThumbnailPublicId.getD ""
    createdAt := now }

/-- `project.save()` in `addProject`: a required-field validation error is a
400 with per-field messages; otherwise the record is persisted and returned
with a 201. -/
def saveNew (b : ReqBody) (newId : String) (now : Nat)
    (store : List ProjectRec) : HandlerOut :=
  let errs := requiredErrors (b.title.getD "") (b.description.getD "")
  if errs.isEmpty then
    let p := mkProject b newId now
    { status := 201, returnedProject := some p, store := p :: store }
  else
    { status := 400, errors := errs, store := store }

/-- The thumbnail-upload tail of `addProject`'s multipart path: upload the
thumbnail file if present (500 on upload failure), then save. -/
def addAfterVideo (env : MediaEnv) (b : ReqBody) (files : ReqFiles)
    (newId : String) (now : Nat) (store : List ProjectRec) : HandlerOut :=
  match files.thumbnail with
  | none => saveNew b newId now store
  | some f =>
    match env.upload .image f with
    | none => { status := 500, store := store }
    | some (url, pid) =>
      saveNew
        { b with
          cloudinaryThumbnailUrl := some url
          cloudinaryThumbnailPublicId := some pid }
        newId now store

/-- `addProject`: the JSON path normalizes the body and saves it as-is (the
media URLs were uploaded by the client); the multipart path additionally
uploads the attached `video`/`thumbnail` files server-side, failing with 500
if an upload throws. -/
def addProject (env : MediaEnv) (isJson : Bool) (body : ReqBody)
    (files : ReqFiles) (newId : String) (now : Nat)
    (store : List ProjectRec) : HandlerOut :=
  let b := normalizeBody body
  if isJson then saveNew b newId now store
  else
    match files.video with
    | none => addAfterVideo env b files newId now store
    | some f =>
      match env.upload .video f with
      | none => { status := 500, store := store }
      | some (url, pid) =>
        addAfterVideo env
          { b with
            cloudinaryVideoUrl := some url
            cloudinaryVideoPublicId := some pid }
          files newId now store

/-- Result of one media branch of `updateProject`: the possibly rewritten
body, the delete calls issued (failures of these are caught and logged), and
whether a server-side upload threw (which fails the request with 500). -/
structure MediaStep where
  body : ReqBody
  calls : List MediaCall := []
  uploadFailed : Bool := false

/-- The video branch of `updateProject`:
if the body carries a truthy new URL+publicId pair, delete the old asset
when its publicId exists and differs (failure caught);
else if the body signals removal (`removeVideo === 'true'` or an empty-string
URL), delete the old asset and clear both fields — only when an old publicId
exists; else if a `video` file is attached, delete the old asset and upload
the file server-side; otherwise leave the fields untouched. -/
def updateVideoStep (env : MediaEnv) (existing : ProjectRec) (b : ReqBody)
    (files : ReqFiles) : MediaStep :=
  if truthyStr b.cloudinaryVideoUrl && truthyStr b.cloudinaryVideoPublicId then
    if existing.cloudinaryVideoPublicId ≠ "" ∧
        existing.cloudinaryVideoPublicId ≠ b.cloudinaryVideoPublicId.getD "" then
      { body := b, calls := [⟨.video, existing.cloudinaryVideoPublicId⟩] }
    else
      { body := b }
  else if b.removeVideo = some "true" ∨ b.cloudinaryVideoUrl = some "" then
    if existing.cloudinaryVideoPublicId ≠ "" then
      { body := { b with
          cloudinaryVideoUrl := some ""
          cloudinaryVideoPublicId := some "" }
        calls := [⟨.video, existing.cloudinaryVideoPublicId⟩] }
    else
      { body := b }
  else
    match files.video with
    | none => { body := b }
    | some f =>
      let delCalls : List MediaCall :=
        if existing.cloudinaryVideoPublicId ≠ "" then
          [⟨.video, existing.cloudinaryVideoPublicId⟩]
        else []
      match env.upload .video f with
      | some (url, pid) =>
        { body := { b with
            cloudinaryVideoUrl := some url
            cloudinaryVideoPublicId := some pid }
          calls := delCalls }
      | none => { body := b, calls := delCalls, uploadFailed := true }

/-- The thumbnail branch of `updateProject`, mirror image of the video
branch with the image helpers. -/
def updateThumbStep (env : MediaEnv) (existing : ProjectRec) (b : ReqBody)
    (files : ReqFiles) : MediaStep :=
  if truthyStr b.cloudinaryThumbnailUrl &&
      truthyStr b.cloudinaryThumbnailPublicId then
    if existing.cloudinaryThumbnailPublicId ≠ "" ∧
        existing.cloudinaryThumbnailPublicId ≠
          b.cloudinaryThumbnailPublicId.getD "" then
      { body := b, calls := [⟨.image, existing.cloudinaryThumbnailPublicId⟩] }
    else
      { body := b }
  else if b.removeThumbnail = some "true" ∨
      b.cloudinaryThumbnailUrl = some "" then
    if existing.cloudinaryThumbnailPublicId ≠ "" then
      { body := { b with
          cloudinaryThumbnailUrl := some ""
          cloudinaryThumbnailPublicId := some "" }
        calls := [⟨.image, existing.cloudinaryThumbnailPublicId⟩] }
    else
      { body := b }
  else
    match files.thumbnail with
    | none => { body := b }
    | some f =>
      let delCalls : List MediaCall :=
        if existing.cloudinaryThumbnailPublicId ≠ "" then
          [⟨.image, existing.cloudinaryThumbnailPublicId⟩]
        else []
      match env.upload .image f with
      | some (url, pid) =>
        { body := { b with
            cloudinaryThumbnailUrl := some url
            cloudinaryThumbnailPublicId := some pid }
          calls := delCalls }
      | none => { body := b, calls := delCalls, uploadFailed := true }

/-- `Project.findByIdAndUpdate(id, req.body, {new: true, runValidators})`
merge semantics: every field present in the body is set, absent fields keep
their stored value (non-schema keys such as `removeVideo` are discarded by
the strict schema). -/
def applyBody (b : ReqBody) (p : ProjectRec) : ProjectRec :=
  { p with
    title := b.title.getD p.title
    description := b.description.getD p.description
    features :=
      match b.features with
      | some v => castStringList (some v)
      | none => p.features
    tools :=
      match b.tools with
      | some v => castStringList (some v)
      | none => p.tools
    cloudinaryVideoUrl := b.cloudinaryVideoUrl.getD p.cloudinaryVideoUrl
    cloudinaryVideoPublicId :=
      b.cloudinaryVideoPublicId.getD p.cloudinaryVideoPublicId
    cloudinaryThumbnailUrl :=
      b.cloudinaryThumbnailUrl.getD p.cloudinaryThumbnailUrl
    cloudinaryThumbnailPublicId :=
      b.cloudinaryThumbnailPublicId.getD p.cloudinaryThumbnailPublicId }

/-- `runValidators` on the update: setting a required field to the empty
string is a validation error naming that field. -/
def updateErrors (b : ReqBody) : List String :=
  (if b.title = some "" then ["title"] else []) ++
    (if b.description = some "" then ["description"] else [])

/-- `updateProject`: 400 on a malformed id before any lookup; 404 when no
record has the id; otherwise normalize the body, run the video and thumbnail
media branches (delete failures are caught and only logged; an upload failure
aborts with 500), then merge the body into the record with validation. -/
def updateProject (env : MediaEnv) (id : String) (body : ReqBody)
    (files : ReqFiles) (store : List ProjectRec) : HandlerOut :=
  if isValidObjectId id then
    match findById store id with
    | none => { status := 404, store := store, dbLookups := [id] }
    | some existing =>
      let b := normalizeBody body
      let vs := updateVideoStep env existing b files
      if vs.uploadFailed then
        { status := 500, store := store, mediaCalls := vs.calls
          dbLookups := [id] }
      else
        let ts := updateThumbStep env existing vs.body files
        if ts.uploadFailed then
          { status := 500, store := store, mediaCalls := vs.calls ++ ts.calls
            dbLookups := [id] }
        else
          let b2 := ts.body
          let errs := updateErrors b2
          if errs.isEmpty then
            let updated := applyBody b2 existing
            { status := 200, returnedProject := some updated
              store := store.map fun p => if p.id == id then updated else p
              mediaCalls := vs.calls ++ ts.calls, dbLookups := [id] }
          else
            { status := 400, errors := errs, store := store
              mediaCalls := vs.calls ++ ts.calls, dbLookups := [id] }
  else
    { status := 400, store := store }

/-- `deleteProject`: 400 on a malformed id before any lookup; 404 when no
record has the id; otherwise delete the video and thumbnail assets from the
media store and then the record. The two delete calls are awaited directly
inside the handler's outer `try` — there is no per-call `catch` — so a
failing media delete propagates to the outer handler, which answers 500
without deleting the record. -/
def deleteProject (env : MediaEnv) (id : String)
    (store : List ProjectRec) : HandlerOut :=
  if isValidObjectId id then
    match findById store id with
    | none => { status := 404, store := store, dbLookups := [id] }
    | some proj =>
      if proj.cloudinaryVideoPublicId ≠ "" ∧
          env.fails .video proj.cloudinaryVideoPublicId then
        { status := 500, store := store, dbLookups := [id]
          mediaCalls := [⟨.video, proj.cloudinaryVideoPublicId⟩] }
      else
        let vCalls : List MediaCall :=
          if proj.cloudinaryVideoPublicId ≠ "" then
            [⟨.video, proj.cloudinaryVideoPublicId⟩]
          else []
        if proj.cloudinaryThumbnailPublicId ≠ "" ∧
            env.fails .image proj.cloudinaryThumbnailPublicId then
          { status := 500, store := store, dbLookups := [id]
            mediaCalls := vCalls ++ [⟨.image, proj.cloudinaryThumbnailPublicId⟩] }
        else
          let tCalls : List MediaCall :=
            if proj.cloudinaryThumbnailPublicId ≠ "" then
              [⟨.image, proj.cloudinaryThumbnailPublicId⟩]
            else []
          { status := 200, returnedProject := some proj
            store := store.filter fun p => p.id ≠ id
            dbLookups := [id], mediaCalls := vCalls ++ tCalls }
  else
    { status := 400, store := store }

/-- `getProject`: 400 on a malformed id before any lookup; 404 when no
record has the id; otherwise 200 with the record. -/
def getProject (id : String) (store : List ProjectRec) : HandlerOut :=
  if isValidObjectId id then
    match findById store id with
    | none => { status := 404, store := store, dbLookups := [id] }
    | some p =>
      { status := 200, returnedProject := some p, store := store
        dbLookups := [id] }
  else
    { status := 400, store := store }

/-- Newest-first order on projects: `.sort({createdAt: -1})`. -/
def newerFirst (a b : ProjectRec) : Prop :=
  b.createdAt ≤ a.createdAt

instance : DecidableRel newerFirst := fun a b =>
  inferInstanceAs (Decidable (b.createdAt ≤ a.createdAt))

instance : IsTotal ProjectRec newerFirst :=
  ⟨fun a b => Nat.le_total b.createdAt a.createdAt⟩

instance : IsTrans ProjectRec newerFirst :=
  ⟨fun _ _ _ h₁ h₂ => Nat.le_trans h₂ h₁⟩

/-- Result of `getProjects`: status, `count`, the records returned, and the
store after the call (a read leaves it unchanged). -/
structure ListOut where
  status : Nat
  count : Nat
  projects : List ProjectRec
  store : List ProjectRec
  deriving Repr, DecidableEq

/-- `getProjects`: every record, sorted newest first
(`Project.find().sort({createdAt: -1})`, modelled as a stable sort). -/
def getProjects (store : List ProjectRec) : ListOut :=
  let sorted := store.insertionSort newerFirst
  { status := 200, count := sorted.length, projects := sorted, store := store }

/-- Modelled from the spec: the User schema (`models/User.js` is not in the
source snapshot); the login controller reads `_id`, `username`, `password`
and `profilePicLink`. -/
structure UserRec where
  id : String
  username : String
  password : String
  profilePicLink : String := ""
  deriving Repr, DecidableEq

/-- The claims `jwt.sign` embeds in the session token:
`{ id: user._id, username: user.username }`. -/
structure TokenPayload where
  id : String
  username : String
  deriving Repr, DecidableEq

/-- `jwt.sign(payload, secret, {expiresIn})`, modelled as the record of what
was signed: payload, signing secret and expiry in seconds. -/
structure SignedJwt where
  payload : TokenPayload
  secret : String
  expiresInSeconds : Nat
  deriving Repr, DecidableEq

/-- A `res.cookie` call: cookie name, the signed token stored in it, the
`httpOnly` attribute and `maxAge` in milliseconds. -/
structure SetCookie where
  name : String
  value : SignedJwt
  httpOnly : Bool
  maxAgeMs : Nat
  deriving Repr, DecidableEq

/-- Observable outcome of `loginUser`: HTTP status, the cookie set (if any),
and the username echoed in the response body (if any). -/
structure LoginOut where
  status : Nat
  cookie : Option SetCookie := none
  echoedUsername : Option String := none
  deriving Repr, DecidableEq

/-- `loginUser`: look the user up by username (404 if absent), compare the
password by plain equality (401 on mismatch), otherwise sign a token with the
user's id and username, a one-day expiry, set it as the HTTP-only cookie
`token` with a 24-hour `maxAge`, and echo the username. -/
def loginUser (users : List UserRec) (secret username password : String) :
    LoginOut :=
  match users.find? (fun u => u.username == username) with
  | none => { status := 404 }
  | some u =>
    if u.password ≠ password then { status := 401 }
    else
      { status := 200
        cookie := some
          { name := "token"
            value :=
              { payload := { id := u.id, username := u.username }
                secret := secret
                expiresInSeconds := 24 * 60 * 60 }
            httpOnly := true
            maxAgeMs := 24 * 60 * 60 * 1000 }
        echoedUsername := some u.username }

/-- The Cloudinary credentials read from the environment; an unset variable
is the empty string. -/
structure CloudEnv where
  apiSecret : String
  apiKey : String
  cloudName : String
  deriving Repr, DecidableEq

/-- `cloudinary.utils.api_sign_request(params, secret)`, modelled as the
record of the parameter list that was signed and the secret. -/
structure SigPayload where
  params : List (String × String)
  secret : String
  deriving Repr, DecidableEq

/-- Whitespace as trimmed from the folder parameter. -/
def isWsChar (c : Char) : Bool :=
  c = ' ' ∨ c = '\t' ∨ c = '\n' ∨ c = '\r'

/-- Model of JavaScript's `String.prototype.trim` for the basic whitespace
characters: strip leading and trailing whitespace. -/
def jsTrim (s : String) : String :=
  String.mk
    (((s.toList.dropWhile isWsChar).reverse.dropWhile isWsChar).reverse)

/-- The parameter object the signature endpoint signs: the trimmed folder
when the supplied folder is truthy with a non-blank trim, and always the
timestamp. `resource_type`, `api_key` and `cloud_name` are never added. -/
def cloudSigParams (folder : Option String) (now : Nat) :
    List (String × String) :=
  (match folder with
   | some f => if f ≠ "" ∧ jsTrim f ≠ "" then [("folder", jsTrim f)] else []
   | none => []) ++ [("timestamp", toString now)]

/-- Observable outcome of `POST /api/cloudinary-signature`. -/
structure SigOut where
  status : Nat
  signature : Option SigPayload := none
  timestamp : Option Nat := none
  folder : Option String := none
  resource_type : Option String := none
  api_key : Option String := none
  cloud_name : Option String := none
  deriving Repr, DecidableEq

/-- The `POST /api/cloudinary-signature` handler: 500 when any of the three
Cloudinary credentials is unconfigured; otherwise sign only the folder (when
truthy and non-blank, trimmed) and the timestamp, and answer with signature,
timestamp, folder, resource type (defaulted to `auto`), api key and cloud
name. -/
def cloudinarySignature (env : CloudEnv) (folder resource_type : Option String)
    (now : Nat) : SigOut :=
  if env.apiSecret = "" ∨ env.apiKey = "" ∨ env.cloudName = "" then
    { status := 500 }
  else
    let params := cloudSigParams folder now
    let respFolder :=
      match folder with
      | some f => if f ≠ "" ∧ jsTrim f ≠ "" then jsTrim f else ""
      | none => ""
    let rt := resource_type.getD "auto"
    { status := 200
      signature := some { params := params, secret := env.apiSecret }
      timestamp := some now
      folder := some respFolder
      resource_type := some (if rt = "" then "auto" else rt)
      api_key := some env.apiKey
      cloud_name := some env.cloudName }

/-- State of one `throttle(func, limit)` closure together with the runtime's
live timers: `lastCall`, `lastArgs` and `timeoutId` are the closure's
variables; `timers` is the list of live `setTimeout` registrations (id and
due time) created by this closure and not yet fired or cleared; `nextId`
feeds fresh timer ids. -/
structure ThrState (A : Type) where
  lastCall : Int := 0
  lastArgs : Option A := none
  timeoutId : Option Nat := none
  timers : List (Nat × Int) := []
  nextId : Nat := 0
  deriving Repr, DecidableEq

/-- Initial state of a freshly created throttled function. -/
def ThrState.init (A : Type) : ThrState A := {}

/-- Events affecting a throttled function: an invocation of the throttled
wrapper at time `t` with arguments `args`, or the runtime firing the live
timer with the given id at time `t`. -/
inductive ThrEvent (A : Type) where
  | call (t : Int) (args : A)
  | fire (id : Nat) (t : Int)
  deriving Repr, DecidableEq

/-- One step of the throttled function. A `call` stores the arguments, then
either executes `func` immediately (when `remaining <= 0 || remaining >
limit`), clearing any pending timer, or schedules the trailing timer if none
is pending. A `fire` of a live timer runs `later`: it removes the timer,
records the execution time in `lastCall`, nulls `timeoutId` and invokes
`func` with the stored arguments. The second component lists the arguments
of the `func` invocations the step performs. -/
def throttleStep {A : Type} (limit : Int) (s : ThrState A) :
    ThrEvent A → ThrState A × List (Option A)
  | .call t args =>
    let remaining := limit - (t - s.lastCall)
    let s1 := { s with lastArgs := some args }
    if remaining ≤ 0 ∨ remaining > limit then
      let s2 :=
        match s1.timeoutId with
        | some i =>
          { s1 with timers := s1.timers.filter (fun p => p.fst ≠ i)
                    timeoutId := none }
        | none => s1
      ({ s2 with lastCall := t }, [some args])
    else
      match s1.timeoutId with
      | none =>
        ({ s1 with
            timers := s1.timers ++ [(s1.nextId, t + remaining)]
            timeoutId := some s1.nextId
            nextId := s1.nextId + 1 }, [])
      | some _ => (s1, [])
  | .fire id t =>
    if (s.timers.find? (fun p => p.fst = id)).isSome then
      ({ s with timers := s.timers.filter (fun p => p.fst ≠ id)
                lastCall := t
                timeoutId := none }, [s.lastArgs])
    else (s, [])

/-- Run a throttled function over a sequence of events, collecting every
`func` invocation's arguments in order. -/
def throttleRun {A : Type} (limit : Int) (s : ThrState A) :
    List (ThrEvent A) → ThrState A × List (Option A)
  | [] => (s, [])
  | e :: rest =>
    let r1 := throttleStep limit s e
    let r2 := throttleRun limit r1.fst rest
    (r2.fst, r1.snd ++ r2.snd)

/-- The arguments of the most recent `call` event in a trace, starting from
a given previously stored value. -/
def recentArgs {A : Type} : List (ThrEvent A) → Option A → Option A
  | [], a => a
  | .call _ args :: rest, _ => recentArgs rest (some args)
  | .fire _ _ :: rest, a => recentArgs rest a

/-- The pending-timer discipline of the throttle closure: either no timer is
pending and none is live, or exactly one timer is live and `timeoutId` names
it. -/
def ThrInv {A : Type} (s : ThrState A) : Prop :=
  (s.timeoutId = none ∧ s.timers = []) ∨
    (∃ i d, s.timeoutId = some i ∧ s.timers = [(i, d)])

/-- The media pairing invariant of the spec: a media URL and its paired
publicId are empty together. -/
def mediaPaired (p : ProjectRec) : Prop :=
  (p.cloudinaryVideoUrl = "" ↔ p.cloudinaryVideoPublicId = "") ∧
    (p.cloudinaryThumbnailUrl = "" ↔ p.cloudinaryThumbnailPublicId = "")

/-- Boolean form of the media pairing invariant. -/
def mediaPairedB (p : ProjectRec) : Bool :=
  ((p.cloudinaryVideoUrl = "") = (p.cloudinaryVideoPublicId = "")) &&
    ((p.cloudinaryThumbnailUrl = "") = (p.cloudinaryThumbnailPublicId = ""))

/-- A body supplies one media pair coherently for a create: URL and publicId
are both truthy or both empty/absent. -/
def createCoherent (u p : Option String) : Prop :=
  (truthyStr u = true ∧ truthyStr p = true) ∨
    (truthyStr u = false ∧ truthyStr p = false)

/-- A body supplies one media pair coherently for an update: either a full
truthy URL+publicId pair, or no publicId at all together with a URL that is
absent or the empty string (the explicit-removal signal). -/
def updateCoherent (u p : Option String) : Prop :=
  (truthyStr u = true ∧ truthyStr p = true) ∨
    ((u = none ∨ u = some "") ∧ p = none)

/-- An upload oracle that only returns Cloudinary results with non-empty URL
and publicId. -/
def uploadsNonempty (env : MediaEnv) : Prop :=
  ∀ k f url pid, env.upload k f = some (url, pid) → url ≠ "" ∧ pid ≠ ""

/-- The delete calls of a list aimed at the given media kind. -/
def callsOfKind (k : MediaKind) (calls : List MediaCall) : List MediaCall :=
  calls.filter fun c => c.kind == k

/-- C8: for every state of the project collection, `getProjects` returns all
records (count included) sorted newest first by creation timestamp, leaves
the store unchanged, and a repeated call with no intervening writes returns
the records in the same order. -/
theorem getProjects_newest_first_idempotent (store : List ProjectRec) :
    (getProjects store).status = 200 ∧
    (getProjects store).count = store.length ∧
    (getProjects store).projects.Perm store ∧
    List.Sorted newerFirst (getProjects store).projects ∧
    (getProjects store).store = store ∧
    getProjects (getProjects store).store = getProjects store := by
  refine ⟨rfl, ?_, ?_, ?_, rfl, rfl⟩
  · exact (List.perm_insertionSort newerFirst store).length_eq
  · simpa [getProjects] using List.perm_insertionSort newerFirst store
  · simpa [getProjects] using List.sorted_insertionSort newerFirst store

/-- C6: `loginUser` answers 404 without a cookie when no user has the given
username, 401 without a cookie when the password mismatches, and on a match
200 with the HTTP-only cookie `token` carrying a token signed over the user
id and username with a 24-hour expiry, echoing the username. -/
theorem loginUser_spec (users : List UserRec)
    (secret username password : String) :
    ((∀ u ∈ users, u.username ≠ username) →
      (loginUser users secret username password).status = 404 ∧
      (loginUser users secret username password).cookie = none) ∧
    (∀ u, users.find? (fun v => v.username == username) = some u →
      (u.password ≠ password →
        (loginUser users secret username password).status = 401 ∧
        (loginUser users secret username password).cookie = none) ∧
      (u.password = password →
        loginUser users secret username password =
          { status := 200
            cookie := some
              { name := "token"
                value :=
                  { payload := { id := u.id, username := u.username }
                    secret := secret
                    expiresInSeconds := 24 * 60 * 60 }
                httpOnly := true
                maxAgeMs := 24 * 60 * 60 * 1000 }
            echoedUsername := some u.username })) := by
  constructor
  · intro h
    have hfind : users.find? (fun v => v.username == username) = none := by
      rw [List.find?_eq_none]
      intro u hu
      simpa using h u hu
    simp [loginUser, hfind]
  · intro u hu
    constructor
    · intro hp
      simp [loginUser, hu, hp]
    · intro hp
      simp [loginUser, hu, hp]

/-- C6 witness at concrete inputs: unknown user, wrong password, and a
successful login. -/
theorem loginUser_spec_witness :
    ((loginUser [⟨"id1", "admin", "pw", "p.png"⟩] "s" "ghost" "pw").status = 404 ∧
      (loginUser [⟨"id1", "admin", "pw", "p.png"⟩] "s" "ghost" "pw").cookie = none) ∧
    ((loginUser [⟨"id1", "admin", "pw", "p.png"⟩] "s" "admin" "bad").status = 401 ∧
      (loginUser [⟨"id1", "admin", "pw", "p.png"⟩] "s" "admin" "bad").cookie = none) ∧
    loginUser [⟨"id1", "admin", "pw", "p.png"⟩] "s" "admin" "pw" =
      { status := 200
        cookie := some
          { name := "token"
            value :=
              { payload := { id := "id1", username := "admin" }
                secret := "s"
                expiresInSeconds := 24 * 60 * 60 }
            httpOnly := true
            maxAgeMs := 24 * 60 * 60 * 1000 }
        echoedUsername := some "admin" } := by
  refine ⟨?_, ?_, ?_⟩
  · exact (loginUser_spec [⟨"id1", "admin", "pw", "p.png"⟩] "s" "ghost" "pw").1
      (by decide)
  · exact ((loginUser_spec [⟨"id1", "admin", "pw", "p.png"⟩] "s" "admin" "bad").2
      ⟨"id1", "admin", "pw", "p.png"⟩ rfl).1 (by decide)
  · exact ((loginUser_spec [⟨"id1", "admin", "pw", "p.png"⟩] "s" "admin" "pw").2
      ⟨"id1", "admin", "pw", "p.png"⟩ rfl).2 rfl

theorem cloudSigParams_key (folder : Option String) (now : Nat) :
    ∀ kv ∈ cloudSigParams folder now,
      kv.fst = "folder" ∨ kv.fst = "timestamp" := by
  intro kv hkv
  rcases folder with _ | f
  · simp [cloudSigParams] at hkv
    subst hkv
    exact Or.inr rfl
  · dsimp [cloudSigParams] at hkv
    by_cases hf : f ≠ "" ∧ jsTrim f ≠ ""
    · rw [if_pos hf] at hkv
      simp at hkv
      rcases hkv with h | h
      · subst h; exact Or.inl rfl
      · subst h; exact Or.inr rfl
    · rw [if_neg hf] at hkv
      simp at hkv
      subst hkv
      exact Or.inr rfl

theorem cloudSigParams_timestamp_mem (folder : Option String) (now : Nat) :
    ("timestamp", toString now) ∈ cloudSigParams folder now := by
  rcases folder with _ | f
  · simp [cloudSigParams]
  · dsimp [cloudSigParams]
    by_cases hf : f ≠ "" ∧ jsTrim f ≠ ""
    · rw [if_pos hf]; simp
    · rw [if_neg hf]; simp

theorem cloudSigParams_folder_mem (f : String) (now : Nat)
    (htrim : jsTrim f ≠ "") :
    ("folder", jsTrim f) ∈ cloudSigParams (some f) now := by
  have hne : f ≠ "" := by
    intro hc
    subst hc
    exact htrim (by decide)
  simp [cloudSigParams, hne, htrim]

theorem cloudSigParams_blank (f : String) (now : Nat) (htrim : jsTrim f = "") :
    cloudSigParams (some f) now = [("timestamp", toString now)] := by
  simp [cloudSigParams, htrim]

/-- C7: the signature endpoint signs only the timestamp plus, when a
non-blank folder is supplied, the trimmed folder — never the resource kind or
the cloud-account parameters — and on success answers 200 with signature,
timestamp, folder, resource type, api key and cloud name; it answers 500 when
any credential is unconfigured. -/
theorem cloudinarySignature_spec (env : CloudEnv)
    (folder resource_type : Option String) (now : Nat) :
    ((env.apiSecret = "" ∨ env.apiKey = "" ∨ env.cloudName = "") →
      (cloudinarySignature env folder resource_type now).status = 500) ∧
    (env.apiSecret ≠ "" → env.apiKey ≠ "" → env.cloudName ≠ "" →
      (cloudinarySignature env folder resource_type now).status = 200 ∧
      (cloudinarySignature env folder resource_type now).signature =
        some { params := cloudSigParams folder now, secret := env.apiSecret } ∧
      (∀ kv ∈ cloudSigParams folder now,
        kv.fst = "folder" ∨ kv.fst = "timestamp") ∧
      ("timestamp", toString now) ∈ cloudSigParams folder now ∧
      (∀ f, folder = some f → jsTrim f ≠ "" →
        ("folder", jsTrim f) ∈ cloudSigParams folder now) ∧
      (∀ f, folder = some f → jsTrim f = "" →
        cloudSigParams folder now = [("timestamp", toString now)]) ∧
      (cloudinarySignature env folder resource_type now).timestamp = some now ∧
      (cloudinarySignature env folder resource_type now).api_key =
        some env.apiKey ∧
      (cloudinarySignature env folder resource_type now).cloud_name =
        some env.cloudName ∧
      (cloudinarySignature env folder resource_type now).resource_type =
        some (if resource_type.getD "auto" = "" then "auto"
              else resource_type.getD "auto")) := by
  constructor
  · intro h
    simp [cloudinarySignature, h]
  · intro h1 h2 h3
    have hcond : ¬(env.apiSecret = "" ∨ env.apiKey = "" ∨ env.cloudName = "") := by
      simp [h1, h2, h3]
    refine ⟨?_, ?_, cloudSigParams_key folder now,
      cloudSigParams_timestamp_mem folder now, ?_, ?_, ?_, ?_, ?_, ?_⟩
    · simp [cloudinarySignature, hcond]
    · simp [cloudinarySignature, hcond]
    · intro f hf htrim
      subst hf
      exact cloudSigParams_folder_mem f now htrim
    · intro f hf htrim
      subst hf
      exact cloudSigParams_blank f now htrim
    · simp [cloudinarySignature, hcond]
    · simp [cloudinarySignature, hcond]
    · simp [cloudinarySignature, hcond]
    · simp [cloudinarySignature, hcond]

/-- C7 witness at concrete inputs: a blank-credential environment answers
500, and a configured one signs exactly the trimmed folder and timestamp. -/
theorem cloudinarySignature_spec_witness :
    (cloudinarySignature ⟨"", "key", "cloud"⟩ (some "proj") (some "video")
        111).status = 500 ∧
    (cloudinarySignature ⟨"sec", "key", "cloud"⟩ (some " proj ") (some "video")
        111).status = 200 ∧
    ("folder", jsTrim " proj ") ∈ cloudSigParams (some " proj ") 111 ∧
    ("timestamp", toString 111) ∈ cloudSigParams (some " proj ") 111 := by
  have h5 := (cloudinarySignature_spec ⟨"", "key", "cloud"⟩ (some "proj")
    (some "video") 111).1 (Or.inl rfl)
  have h2 := (cloudinarySignature_spec ⟨"sec", "key", "cloud"⟩ (some " proj ")
    (some "video") 111).2 (by decide) (by decide) (by decide)
  exact ⟨h5, h2.1, h2.2.2.2.2.1 " proj " rfl (by decide),
    h2.2.2.2.1⟩

/-- C3: for every id that is not a well-formed ObjectId, the project get,
update and delete handlers answer 400 without performing any database lookup;
for every well-formed id with no matching record they answer 404. -/
theorem idValidation_spec (env : MediaEnv) (id : String) (body : ReqBody)
    (files : ReqFiles) (store : List ProjectRec) :
    (isValidObjectId id = false →
      (getProject id store).status = 400 ∧
      (getProject id store).dbLookups = [] ∧
      (updateProject env id body files store).status = 400 ∧
      (updateProject env id body files store).dbLookups = [] ∧
      (deleteProject env id store).status = 400 ∧
      (deleteProject env id store).dbLookups = []) ∧
    (isValidObjectId id = true → findById store id = none →
      (getProject id store).status = 404 ∧
      (updateProject env id body files store).status = 404 ∧
      (deleteProject env id store).status = 404) := by
  constructor
  · intro h
    refine ⟨?_, ?_, ?_, ?_, ?_, ?_⟩ <;> simp [getProject, updateProject, deleteProject, h]
  · intro h hf
    refine ⟨?_, ?_, ?_⟩ <;> simp [getProject, updateProject, deleteProject, h, hf]

/-- C3 witness at concrete inputs: a malformed id and a well-formed id that
matches no record on an empty store. -/
theorem idValidation_spec_witness :
    ((getProject "zz" []).status = 400 ∧
      (getProject "zz" []).dbLookups = [] ∧
      (updateProject ⟨fun _ _ => false, fun _ _ => none⟩ "zz" {} {} []).status = 400 ∧
      (deleteProject ⟨fun _ _ => false, fun _ _ => none⟩ "zz" []).status = 400) ∧
    ((getProject "0123456789abcdef01234567" []).status = 404 ∧
      (updateProject ⟨fun _ _ => false, fun _ _ => none⟩
        "0123456789abcdef01234567" {} {} []).status = 404 ∧
      (deleteProject ⟨fun _ _ => false, fun _ _ => none⟩
        "0123456789abcdef01234567" []).status = 404) := by
  have h1 := (idValidation_spec ⟨fun _ _ => false, fun _ _ => none⟩ "zz" {} {}
    []).1 (by decide)
  have h2 := (idValidation_spec ⟨fun _ _ => false, fun _ _ => none⟩
    "0123456789abcdef01234567" {} {} []).2 (by decide) rfl
  exact ⟨⟨h1.1, h1.2.1, h1.2.2.1, h1.2.2.2.2.1⟩, h2⟩

/-- C1: evaluation of `deleteProject` at the failing input. Contrary to the
claim, a failing media-store delete call for the record's video publicId is
not merely logged: the handler has no per-call catch, the outer catch answers
500, and the record is not removed. -/
theorem deleteProject_mediaFailure_returns500 :
    (deleteProject ⟨fun _ pid => pid == "vid-1", fun _ _ => none⟩
        "aaaaaaaaaaaaaaaaaaaaaaaa"
        [{ id := "aaaaaaaaaaaaaaaaaaaaaaaa", title := "t", description := "d",
           cloudinaryVideoUrl := "http://v", cloudinaryVideoPublicId := "vid-1",
           createdAt := 1 }]).status = 500 ∧
    (deleteProject ⟨fun _ pid => pid == "vid-1", fun _ _ => none⟩
        "aaaaaaaaaaaaaaaaaaaaaaaa"
        [{ id := "aaaaaaaaaaaaaaaaaaaaaaaa", title := "t", description := "d",
           cloudinaryVideoUrl := "http://v", cloudinaryVideoPublicId := "vid-1",
           createdAt := 1 }]).store =
      [{ id := "aaaaaaaaaaaaaaaaaaaaaaaa", title := "t", description := "d",
         cloudinaryVideoUrl := "http://v", cloudinaryVideoPublicId := "vid-1",
         createdAt := 1 }] ∧
    (deleteProject ⟨fun _ pid => pid == "vid-1", fun _ _ => none⟩
        "aaaaaaaaaaaaaaaaaaaaaaaa"
        [{ id := "aaaaaaaaaaaaaaaaaaaaaaaa", title := "t", description := "d",
           cloudinaryVideoUrl := "http://v", cloudinaryVideoPublicId := "vid-1",
           createdAt := 1 }]).returnedProject = none ∧
    (deleteProject ⟨fun _ pid => pid == "vid-1", fun _ _ => none⟩
        "aaaaaaaaaaaaaaaaaaaaaaaa"
        [{ id := "aaaaaaaaaaaaaaaaaaaaaaaa", title := "t", description := "d",
           cloudinaryVideoUrl := "http://v", cloudinaryVideoPublicId := "vid-1",
           createdAt := 1 }]).mediaCalls = [⟨.video, "vid-1"⟩] := by
  decide

theorem truthyStr_iff (u : Option String) :
    truthyStr u = true ↔ u.getD "" ≠ "" := by
  cases u <;> simp [truthyStr]

theorem truthyStr_false_iff (u : Option String) :
    truthyStr u = false ↔ u.getD "" = "" := by
  cases u <;> simp [truthyStr]

theorem normalizeBody_media (b : ReqBody) :
    (normalizeBody b).cloudinaryVideoUrl = b.cloudinaryVideoUrl ∧
    (normalizeBody b).cloudinaryVideoPublicId = b.cloudinaryVideoPublicId ∧
    (normalizeBody b).cloudinaryThumbnailUrl = b.cloudinaryThumbnailUrl ∧
    (normalizeBody b).cloudinaryThumbnailPublicId =
      b.cloudinaryThumbnailPublicId ∧
    (normalizeBody b).removeVideo = b.removeVideo ∧
    (normalizeBody b).removeThumbnail = b.removeThumbnail ∧
    (normalizeBody b).title = b.title ∧
    (normalizeBody b).description = b.description := by
  by_cases h1 : (featAssignments b.extra).isEmpty <;>
    by_cases h2 : (toolAssignments b.extra).isEmpty <;>
      simp [normalizeBody, h1, h2]

theorem applyBody_paired (b : ReqBody) (p : ProjectRec)
    (hv : (b.cloudinaryVideoUrl.getD p.cloudinaryVideoUrl = "") =
      (b.cloudinaryVideoPublicId.getD p.cloudinaryVideoPublicId = ""))
    (ht : (b.cloudinaryThumbnailUrl.getD p.cloudinaryThumbnailUrl = "") =
      (b.cloudinaryThumbnailPublicId.getD p.cloudinaryThumbnailPublicId = "")) :
    mediaPairedB (applyBody b p) = true := by
  simp [applyBody, mediaPairedB, hv, ht]

theorem getD_ne_of_truthy {u : Option String} (h : truthyStr u = true)
    (x : String) : u.getD x ≠ "" := by
  cases u with
  | none => simp [truthyStr] at h
  | some s => simpa [truthyStr] using h

theorem updateVideoStep_preserves (env : MediaEnv) (existing : ProjectRec)
    (b : ReqBody) (files : ReqFiles) :
    (updateVideoStep env existing b files).body.cloudinaryThumbnailUrl =
      b.cloudinaryThumbnailUrl ∧
    (updateVideoStep env existing b files).body.cloudinaryThumbnailPublicId =
      b.cloudinaryThumbnailPublicId ∧
    (updateVideoStep env existing b files).body.removeThumbnail =
      b.removeThumbnail ∧
    (updateVideoStep env existing b files).body.title = b.title ∧
    (updateVideoStep env existing b files).body.description = b.description := by
  unfold updateVideoStep
  dsimp only
  repeat' split
  all_goals simp

theorem updateThumbStep_preserves (env : MediaEnv) (existing : ProjectRec)
    (b : ReqBody) (files : ReqFiles) :
    (updateThumbStep env existing b files).body.cloudinaryVideoUrl =
      b.cloudinaryVideoUrl ∧
    (updateThumbStep env existing b files).body.cloudinaryVideoPublicId =
      b.cloudinaryVideoPublicId ∧
    (updateThumbStep env existing b files).body.removeVideo = b.removeVideo ∧
    (updateThumbStep env existing b files).body.title = b.title ∧
    (updateThumbStep env existing b files).body.description = b.description := by
  unfold updateThumbStep
  dsimp only
  repeat' split
  all_goals simp

theorem updateVideoStep_pair (env : MediaEnv) (existing : ProjectRec)
    (b : ReqBody) (files : ReqFiles) (hup : uploadsNonempty env)
    (hv : updateCoherent b.cloudinaryVideoUrl b.cloudinaryVideoPublicId)
    (hex : (existing.cloudinaryVideoUrl = "") =
      (existing.cloudinaryVideoPublicId = "")) :
    (updateVideoStep env existing b files).uploadFailed = false →
    ((updateVideoStep env existing b files).body.cloudinaryVideoUrl.getD
        existing.cloudinaryVideoUrl = "") =
      ((updateVideoStep env existing b files).body.cloudinaryVideoPublicId.getD
        existing.cloudinaryVideoPublicId = "") := by
  intro hok
  rcases hv with ⟨hu, hp⟩ | ⟨hu, hp⟩
  · -- a full truthy pair is supplied: branch 1, body unchanged
    have h1 := getD_ne_of_truthy hu existing.cloudinaryVideoUrl
    have h2 := getD_ne_of_truthy hp existing.cloudinaryVideoPublicId
    unfold updateVideoStep
    rw [if_pos (by simp [hu, hp])]
    split <;> simp [h1, h2]
  · -- no publicId, URL absent or empty
    have hut : truthyStr b.cloudinaryVideoUrl = false := by
      rcases hu with h | h <;> simp [h, truthyStr]
    by_cases hrm : b.removeVideo = some "true" ∨ b.cloudinaryVideoUrl = some ""
    · unfold updateVideoStep
      rw [if_neg (by simp [hut]), if_pos hrm]
      by_cases hep : existing.cloudinaryVideoPublicId = ""
      · rw [if_neg (by simp [hep])]
        have hexu : existing.cloudinaryVideoUrl = "" := by
          rw [hex]; exact hep
        rcases hu with h | h <;> simp [h, hp, hep, hexu]
      · rw [if_pos hep]
        simp
    · have hun : b.cloudinaryVideoUrl = none := by
        rcases hu with h | h
        · exact h
        · exact absurd (Or.inr h) hrm
      cases hfv : files.video with
      | none =>
        unfold updateVideoStep
        rw [if_neg (by simp [hut]), if_neg hrm, hfv]
        simp [hun, hp, hex]
      | some f =>
        cases hupl : env.upload .video f with
        | none =>
          revert hok
          unfold updateVideoStep
          rw [if_neg (by simp [hut]), if_neg hrm, hfv]
          simp [hupl]
        | some r =>
          obtain ⟨url, pid⟩ := r
          have hnz := hup .video f url pid hupl
          unfold updateVideoStep
          rw [if_neg (by simp [hut]), if_neg hrm, hfv]
          simp [hupl, hnz.1, hnz.2]

theorem updateThumbStep_pair (env : MediaEnv) (existing : ProjectRec)
    (b : ReqBody) (files : ReqFiles) (hup : uploadsNonempty env)
    (hv : updateCoherent b.cloudinaryThumbnailUrl b.cloudinaryThumbnailPublicId)
    (hex : (existing.cloudinaryThumbnailUrl = "") =
      (existing.cloudinaryThumbnailPublicId = "")) :
    (updateThumbStep env existing b files).uploadFailed = false →
    ((updateThumbStep env existing b files).body.cloudinaryThumbnailUrl.getD
        existing.cloudinaryThumbnailUrl = "") =
      ((updateThumbStep env existing b
          files).body.cloudinaryThumbnailPublicId.getD
        existing.cloudinaryThumbnailPublicId = "") := by
  intro hok
  rcases hv with ⟨hu, hp⟩ | ⟨hu, hp⟩
  · have h1 := getD_ne_of_truthy hu existing.cloudinaryThumbnailUrl
    have h2 := getD_ne_of_truthy hp existing.cloudinaryThumbnailPublicId
    unfold updateThumbStep
    rw [if_pos (by simp [hu, hp])]
    split <;> simp [h1, h2]
  · have hut : truthyStr b.cloudinaryThumbnailUrl = false := by
      rcases hu with h | h <;> simp [h, truthyStr]
    by_cases hrm : b.removeThumbnail = some "true" ∨
      b.cloudinaryThumbnailUrl = some ""
    · unfold updateThumbStep
      rw [if_neg (by simp [hut]), if_pos hrm]
      by_cases hep : existing.cloudinaryThumbnailPublicId = ""
      · rw [if_neg (by simp [hep])]
        have hexu : existing.cloudinaryThumbnailUrl = "" := by
          rw [hex]; exact hep
        rcases hu with h | h <;> simp [h, hp, hep, hexu]
      · rw [if_pos hep]
        simp
    · have hun : b.cloudinaryThumbnailUrl = none := by
        rcases hu with h | h
        · exact h
        · exact absurd (Or.inr h) hrm
      cases hfv : files.thumbnail with
      | none =>
        unfold updateThumbStep
        rw [if_neg (by simp [hut]), if_neg hrm, hfv]
        simp [hun, hp, hex]
      | some f =>
        cases hupl : env.upload .image f with
        | none =>
          revert hok
          unfold updateThumbStep
          rw [if_neg (by simp [hut]), if_neg hrm, hfv]
          simp [hupl]
        | some r =>
          obtain ⟨url, pid⟩ := r
          have hnz := hup .image f url pid hupl
          unfold updateThumbStep
          rw [if_neg (by simp [hut]), if_neg hrm, hfv]
          simp [hupl, hnz.1, hnz.2]

theorem createCoherent_getD {u p : Option String} (h : createCoherent u p) :
    (u.getD "" = "") = (p.getD "" = "") := by
  rcases h with ⟨hu, hp⟩ | ⟨hu, hp⟩
  · have h1 := (truthyStr_iff u).mp hu
    have h2 := (truthyStr_iff p).mp hp
    simp [h1, h2]
  · have h1 := (truthyStr_false_iff u).mp hu
    have h2 := (truthyStr_false_iff p).mp hp
    simp [h1, h2]

theorem saveNew_paired (b : ReqBody) (newId : String) (now : Nat)
    (store : List ProjectRec)
    (hv : (b.cloudinaryVideoUrl.getD "" = "") =
      (b.cloudinaryVideoPublicId.getD "" = ""))
    (ht : (b.cloudinaryThumbnailUrl.getD "" = "") =
      (b.cloudinaryThumbnailPublicId.getD "" = "")) :
    ((saveNew b newId now store).returnedProject.all mediaPairedB) = true := by
  unfold saveNew
  dsimp only
  split
  · simp [mkProject, mediaPairedB, Option.all, hv, ht]
  · simp [Option.all]

theorem addAfterVideo_paired (env : MediaEnv) (b : ReqBody) (files : ReqFiles)
    (newId : String) (now : Nat) (store : List ProjectRec)
    (hup : uploadsNonempty env)
    (hv : (b.cloudinaryVideoUrl.getD "" = "") =
      (b.cloudinaryVideoPublicId.getD "" = ""))
    (ht : (b.cloudinaryThumbnailUrl.getD "" = "") =
      (b.cloudinaryThumbnailPublicId.getD "" = "")) :
    ((addAfterVideo env b files newId now
      store).returnedProject.all mediaPairedB) = true := by
  unfold addAfterVideo
  cases hft : files.thumbnail with
  | none => exact saveNew_paired b newId now store hv ht
  | some f =>
    cases hupl : env.upload .image f with
    | none => simp [hupl, Option.all]
    | some r =>
      obtain ⟨url, pid⟩ := r
      have hnz := hup .image f url pid hupl
      simp only [hupl]
      exact saveNew_paired _ newId now store hv (by simp [hnz.1, hnz.2])

/-- C2 counterexample: a JSON create whose body supplies a video URL without
its paired publicId succeeds with 201, yet the stored record violates the
pairing invariant. -/
theorem addProject_unpaired_counterexample :
    (addProject ⟨fun _ _ => false, fun _ _ => none⟩ true
        { title := some "t", description := some "d",
          cloudinaryVideoUrl := some "http://v" } {} "newid" 5 []).status =
      201 ∧
    ((addProject ⟨fun _ _ => false, fun _ _ => none⟩ true
        { title := some "t", description := some "d",
          cloudinaryVideoUrl := some "http://v" } {} "newid" 5
        []).returnedProject.map mediaPairedB) = some false := by
  decide

/-- C2 amended: the pairing invariant is not enforced against arbitrary
bodies (see the counterexample); it holds after every successful create whose
body supplies each media pair both-truthy or both-empty/absent, and after
every successful update whose body, per media kind, supplies either a full
truthy pair or no publicId with an absent-or-empty URL, provided the stored
records already satisfy the invariant and uploads return non-empty results. -/
theorem mediaPairing_amended (env : MediaEnv) (body : ReqBody)
    (files : ReqFiles) (isJson : Bool) (newId id : String) (now : Nat)
    (store : List ProjectRec) (hup : uploadsNonempty env) :
    (createCoherent body.cloudinaryVideoUrl body.cloudinaryVideoPublicId →
      createCoherent body.cloudinaryThumbnailUrl
        body.cloudinaryThumbnailPublicId →
      ((addProject env isJson body files newId now
        store).returnedProject.all mediaPairedB) = true) ∧
    (updateCoherent body.cloudinaryVideoUrl body.cloudinaryVideoPublicId →
      updateCoherent body.cloudinaryThumbnailUrl
        body.cloudinaryThumbnailPublicId →
      (∀ p ∈ store, mediaPairedB p = true) →
      ((updateProject env id body files
        store).returnedProject.all mediaPairedB) = true) := by
  have hm := normalizeBody_media body
  constructor
  · intro hcv hct
    have hv : ((normalizeBody body).cloudinaryVideoUrl.getD "" = "") =
        ((normalizeBody body).cloudinaryVideoPublicId.getD "" = "") := by
      rw [hm.1, hm.2.1]
      exact createCoherent_getD hcv
    have ht : ((normalizeBody body).cloudinaryThumbnailUrl.getD "" = "") =
        ((normalizeBody body).cloudinaryThumbnailPublicId.getD "" = "") := by
      rw [hm.2.2.1, hm.2.2.2.1]
      exact createCoherent_getD hct
    unfold addProject
    dsimp only
    cases isJson with
    | true => exact saveNew_paired _ newId now store hv ht
    | false =>
      cases hfv : files.video with
      | none => exact addAfterVideo_paired env _ files newId now store hup hv ht
      | some f =>
        cases hupl : env.upload .video f with
        | none => simp [hupl, Option.all]
        | some r =>
          obtain ⟨url, pid⟩ := r
          have hnz := hup .video f url pid hupl
          simp only [hupl]
          exact addAfterVideo_paired env _ files newId now store hup
            (by simp [hnz.1, hnz.2]) ht
  · intro hcv hct hstore
    cases hid : isValidObjectId id with
    | false => simp [updateProject, hid, Option.all]
    | true =>
      cases hfind : findById store id with
      | none => simp [updateProject, hid, hfind, Option.all]
      | some existing =>
        have hexmem : existing ∈ store := List.mem_of_find?_eq_some hfind
        have hexp := hstore existing hexmem
        simp only [mediaPairedB, Bool.and_eq_true, decide_eq_true_eq] at hexp
        have hnv : updateCoherent (normalizeBody body).cloudinaryVideoUrl
            (normalizeBody body).cloudinaryVideoPublicId := by
          rw [hm.1, hm.2.1]; exact hcv
        have hnt : updateCoherent (normalizeBody body).cloudinaryThumbnailUrl
            (normalizeBody body).cloudinaryThumbnailPublicId := by
          rw [hm.2.2.1, hm.2.2.2.1]; exact hct
        have hpresV := updateVideoStep_preserves env existing
          (normalizeBody body) files
        simp only [updateProject, hid, hfind]
        by_cases hvf : (updateVideoStep env existing (normalizeBody body)
            files).uploadFailed = true
        · simp [hvf, Option.all]
        · have hvf' : (updateVideoStep env existing (normalizeBody body)
              files).uploadFailed = false := by
            revert hvf
            cases (updateVideoStep env existing (normalizeBody body)
              files).uploadFailed <;> simp
          have hvpair := updateVideoStep_pair env existing (normalizeBody body)
            files hup hnv hexp.1 hvf'
          have hntv : updateCoherent
              (updateVideoStep env existing (normalizeBody body)
                files).body.cloudinaryThumbnailUrl
              (updateVideoStep env existing (normalizeBody body)
                files).body.cloudinaryThumbnailPublicId := by
            rw [hpresV.1, hpresV.2.1]; exact hnt
          have hpresT := updateThumbStep_preserves env existing
            (updateVideoStep env existing (normalizeBody body) files).body files
          by_cases htf : (updateThumbStep env existing
              (updateVideoStep env existing (normalizeBody body) files).body
              files).uploadFailed = true
          · simp [hvf', htf, Option.all]
          · have htf' : (updateThumbStep env existing
                (updateVideoStep env existing (normalizeBody body) files).body
                files).uploadFailed = false := by
              revert htf
              cases (updateThumbStep env existing
                (updateVideoStep env existing (normalizeBody body) files).body
                files).uploadFailed <;> simp
            have htpair := updateThumbStep_pair env existing
              (updateVideoStep env existing (normalizeBody body) files).body
              files hup hntv hexp.2 htf'
            by_cases herr : (updateErrors (updateThumbStep env existing
                (updateVideoStep env existing (normalizeBody body) files).body
                files).body).isEmpty = true
            · have hpair1 : ((updateThumbStep env existing
                  (updateVideoStep env existing (normalizeBody body) files).body
                  files).body.cloudinaryVideoUrl.getD
                    existing.cloudinaryVideoUrl = "") =
                  ((updateThumbStep env existing
                    (updateVideoStep env existing (normalizeBody body)
                      files).body
                    files).body.cloudinaryVideoPublicId.getD
                    existing.cloudinaryVideoPublicId = "") := by
                rw [hpresT.1, hpresT.2.1]
                exact hvpair
              simp [hvf', htf', herr, Option.all,
                applyBody_paired _ existing hpair1 htpair]
            · simp [hvf', htf', herr, Option.all]

/-- C2 witness at concrete inputs: a coherent create body and a coherent
update body both yield records satisfying the pairing invariant. -/
theorem mediaPairing_amended_witness :
    ((addProject ⟨fun _ _ => false, fun _ _ => none⟩ true
        { title := some "t", description := some "d",
          cloudinaryVideoUrl := some "http://v",
          cloudinaryVideoPublicId := some "vid-1" } {} "newid" 5
        []).returnedProject.all mediaPairedB) = true ∧
    ((updateProject ⟨fun _ _ => false, fun _ _ => none⟩
        "aaaaaaaaaaaaaaaaaaaaaaaa"
        { cloudinaryVideoUrl := some "http://v2",
          cloudinaryVideoPublicId := some "vid-2" } {}
        [{ id := "aaaaaaaaaaaaaaaaaaaaaaaa", title := "t", description := "d",
           cloudinaryVideoUrl := "http://v", cloudinaryVideoPublicId := "vid-1",
           createdAt := 1 }]).returnedProject.all mediaPairedB) = true := by
  constructor
  · exact (mediaPairing_amended ⟨fun _ _ => false, fun _ _ => none⟩
      { title := some "t", description := some "d",
        cloudinaryVideoUrl := some "http://v",
        cloudinaryVideoPublicId := some "vid-1" } {} true "newid" "x" 5 []
      (fun _ _ _ _ h => nomatch h)).1 (Or.inl ⟨by decide, by decide⟩)
      (Or.inr ⟨by decide, by decide⟩)
  · exact (mediaPairing_amended ⟨fun _ _ => false, fun _ _ => none⟩
      { cloudinaryVideoUrl := some "http://v2",
        cloudinaryVideoPublicId := some "vid-2" } {} true "y"
      "aaaaaaaaaaaaaaaaaaaaaaaa" 7
      [{ id := "aaaaaaaaaaaaaaaaaaaaaaaa", title := "t", description := "d",
         cloudinaryVideoUrl := "http://v", cloudinaryVideoPublicId := "vid-1",
         createdAt := 1 }]
      (fun _ _ _ _ h => nomatch h)).2 (Or.inl ⟨by decide, by decide⟩)
      (Or.inr ⟨Or.inl rfl, rfl⟩) (by decide)

theorem updateVideoStep_calls_kind (env : MediaEnv) (existing : ProjectRec)
    (b : ReqBody) (files : ReqFiles) :
    callsOfKind .image (updateVideoStep env existing b files).calls = [] := by
  unfold updateVideoStep
  dsimp only
  repeat' split
  all_goals simp [callsOfKind]

theorem updateThumbStep_calls_kind (env : MediaEnv) (existing : ProjectRec)
    (b : ReqBody) (files : ReqFiles) :
    callsOfKind .video (updateThumbStep env existing b files).calls = [] := by
  unfold updateThumbStep
  dsimp only
  repeat' split
  all_goals simp [callsOfKind]

theorem updateVideoStep_truthyPair (env : MediaEnv) (existing : ProjectRec)
    (b : ReqBody) (files : ReqFiles)
    (hu : truthyStr b.cloudinaryVideoUrl = true)
    (hp : truthyStr b.cloudinaryVideoPublicId = true) :
    (updateVideoStep env existing b files).uploadFailed = false ∧
    (updateVideoStep env existing b files).body = b ∧
    (existing.cloudinaryVideoPublicId ≠ "" →
      ((b.cloudinaryVideoPublicId ≠ some existing.cloudinaryVideoPublicId →
        (updateVideoStep env existing b files).calls =
          [⟨.video, existing.cloudinaryVideoPublicId⟩]) ∧
      (b.cloudinaryVideoPublicId = some existing.cloudinaryVideoPublicId →
        (updateVideoStep env existing b files).calls = []))) := by
  have hsome : b.cloudinaryVideoPublicId =
      some (b.cloudinaryVideoPublicId.getD "") := by
    revert hp
    cases hpb : b.cloudinaryVideoPublicId with
    | none => intro hp; simp [truthyStr] at hp
    | some s => intro _; rfl
  unfold updateVideoStep
  rw [if_pos (by simp [hu, hp])]
  refine ⟨by split <;> rfl, by split <;> rfl, ?_⟩
  intro hold
  constructor
  · intro hne
    rw [if_pos ⟨hold, fun hc => hne (by rw [hsome, ← hc])⟩]
  · intro heq
    rw [if_neg (by simp [heq])]

theorem updateThumbStep_truthyPair (env : MediaEnv) (existing : ProjectRec)
    (b : ReqBody) (files : ReqFiles)
    (hu : truthyStr b.cloudinaryThumbnailUrl = true)
    (hp : truthyStr b.cloudinaryThumbnailPublicId = true) :
    (updateThumbStep env existing b files).uploadFailed = false ∧
    (updateThumbStep env existing b files).body = b ∧
    (existing.cloudinaryThumbnailPublicId ≠ "" →
      ((b.cloudinaryThumbnailPublicId ≠
          some existing.cloudinaryThumbnailPublicId →
        (updateThumbStep env existing b files).calls =
          [⟨.image, existing.cloudinaryThumbnailPublicId⟩]) ∧
      (b.cloudinaryThumbnailPublicId =
          some existing.cloudinaryThumbnailPublicId →
        (updateThumbStep env existing b files).calls = []))) := by
  have hsome : b.cloudinaryThumbnailPublicId =
      some (b.cloudinaryThumbnailPublicId.getD "") := by
    revert hp
    cases hpb : b.cloudinaryThumbnailPublicId with
    | none => intro hp; simp [truthyStr] at hp
    | some s => intro _; rfl
  unfold updateThumbStep
  rw [if_pos (by simp [hu, hp])]
  refine ⟨by split <;> rfl, by split <;> rfl, ?_⟩
  intro hold
  constructor
  · intro hne
    rw [if_pos ⟨hold, fun hc => hne (by rw [hsome, ← hc])⟩]
  · intro heq
    rw [if_neg (by simp [heq])]

theorem updateProject_mediaCalls (env : MediaEnv) (id : String)
    (body : ReqBody) (files : ReqFiles) (store : List ProjectRec)
    (ex : ProjectRec) (hid : isValidObjectId id = true)
    (hex : findById store id = some ex)
    (hok : (updateVideoStep env ex (normalizeBody body)
      files).uploadFailed = false) :
    (updateProject env id body files store).mediaCalls =
      (updateVideoStep env ex (normalizeBody body) files).calls ++
        (updateThumbStep env ex
          (updateVideoStep env ex (normalizeBody body) files).body
          files).calls := by
  simp only [updateProject, hid, hex, hok, Bool.false_eq_true, if_false,
    eq_self_iff_true, if_true]
  split
  · rfl
  · split <;> rfl

theorem callsOfKind_append (k : MediaKind) (l1 l2 : List MediaCall) :
    callsOfKind k (l1 ++ l2) = callsOfKind k l1 ++ callsOfKind k l2 :=
  List.filter_append l1 l2

theorem callsOfKind_self (k : MediaKind) (pid : String) :
    callsOfKind k [⟨k, pid⟩] = [⟨k, pid⟩] := by
  simp [callsOfKind]

/-- C4: on an update of an existing record that supplies a truthy new
URL+publicId pair for the video (resp. thumbnail), the handler issues exactly
one video (resp. image) delete call, aimed at the old stored publicId, when
the supplied publicId differs from the stored one — and zero such calls when
it equals it. (For the thumbnail half the video branch must not have aborted
the request with an upload failure.) -/
theorem update_mediaDelete_calls (env : MediaEnv) (id : String)
    (body : ReqBody) (files : ReqFiles) (store : List ProjectRec)
    (ex : ProjectRec) (hid : isValidObjectId id = true)
    (hex : findById store id = some ex) :
    (truthyStr body.cloudinaryVideoUrl = true →
      truthyStr body.cloudinaryVideoPublicId = true →
      ex.cloudinaryVideoPublicId ≠ "" →
      ((body.cloudinaryVideoPublicId ≠ some ex.cloudinaryVideoPublicId →
        callsOfKind .video (updateProject env id body files store).mediaCalls =
          [⟨.video, ex.cloudinaryVideoPublicId⟩]) ∧
      (body.cloudinaryVideoPublicId = some ex.cloudinaryVideoPublicId →
        callsOfKind .video
          (updateProject env id body files store).mediaCalls = []))) ∧
    (truthyStr body.cloudinaryThumbnailUrl = true →
      truthyStr body.cloudinaryThumbnailPublicId = true →
      ex.cloudinaryThumbnailPublicId ≠ "" →
      (updateVideoStep env ex (normalizeBody body) files).uploadFailed =
        false →
      ((body.cloudinaryThumbnailPublicId ≠
          some ex.cloudinaryThumbnailPublicId →
        callsOfKind .image (updateProject env id body files store).mediaCalls =
          [⟨.image, ex.cloudinaryThumbnailPublicId⟩]) ∧
      (body.cloudinaryThumbnailPublicId =
          some ex.cloudinaryThumbnailPublicId →
        callsOfKind .image
          (updateProject env id body files store).mediaCalls = []))) := by
  have hm := normalizeBody_media body
  have hpres := updateVideoStep_preserves env ex (normalizeBody body) files
  constructor
  · intro hu hp hold
    have hu' : truthyStr (normalizeBody body).cloudinaryVideoUrl = true := by
      rw [hm.1]; exact hu
    have hp' : truthyStr (normalizeBody body).cloudinaryVideoPublicId =
        true := by
      rw [hm.2.1]; exact hp
    have hvp := updateVideoStep_truthyPair env ex (normalizeBody body)
      files hu' hp'
    have hcalls := updateProject_mediaCalls env id body files store ex hid hex
      hvp.1
    constructor
    · intro hne
      have hne' : (normalizeBody body).cloudinaryVideoPublicId ≠
          some ex.cloudinaryVideoPublicId := by
        rw [hm.2.1]; exact hne
      have hvs := (hvp.2.2 hold).1 hne'
      rw [hcalls, callsOfKind_append, hvs, callsOfKind_self,
        updateThumbStep_calls_kind, List.append_nil]
    · intro heq
      have heq' : (normalizeBody body).cloudinaryVideoPublicId =
          some ex.cloudinaryVideoPublicId := by
        rw [hm.2.1]; exact heq
      have hvs := (hvp.2.2 hold).2 heq'
      rw [hcalls, callsOfKind_append, hvs, updateThumbStep_calls_kind]
      rfl
  · intro hu hp hold hokV
    have hu' : truthyStr (updateVideoStep env ex (normalizeBody body)
        files).body.cloudinaryThumbnailUrl = true := by
      rw [hpres.1, hm.2.2.1]; exact hu
    have hp' : truthyStr (updateVideoStep env ex (normalizeBody body)
        files).body.cloudinaryThumbnailPublicId = true := by
      rw [hpres.2.1, hm.2.2.2.1]; exact hp
    have htp := updateThumbStep_truthyPair env ex
      (updateVideoStep env ex (normalizeBody body) files).body files hu' hp'
    have hcalls := updateProject_mediaCalls env id body files store ex hid hex
      hokV
    constructor
    · intro hne
      have hne' : (updateVideoStep env ex (normalizeBody body)
          files).body.cloudinaryThumbnailPublicId ≠
          some ex.cloudinaryThumbnailPublicId := by
        rw [hpres.2.1, hm.2.2.2.1]; exact hne
      have hts := (htp.2.2 hold).1 hne'
      rw [hcalls, callsOfKind_append, hts, callsOfKind_self,
        updateVideoStep_calls_kind, List.nil_append]
    · intro heq
      have heq' : (updateVideoStep env ex (normalizeBody body)
          files).body.cloudinaryThumbnailPublicId =
          some ex.cloudinaryThumbnailPublicId := by
        rw [hpres.2.1, hm.2.2.2.1]; exact heq
      have hts := (htp.2.2 hold).2 heq'
      rw [hcalls, callsOfKind_append, hts, updateVideoStep_calls_kind]
      rfl

/-- C4 witness at a concrete update: a changed video pair issues exactly the
one delete call against the old publicId, while the unchanged thumbnail pair
issues zero image delete calls. -/
theorem update_mediaDelete_calls_witness :
    callsOfKind .video
      (updateProject ⟨fun _ _ => false, fun _ _ => none⟩
        "aaaaaaaaaaaaaaaaaaaaaaaa"
        { cloudinaryVideoUrl := some "http://v2",
          cloudinaryVideoPublicId := some "vid-2",
          cloudinaryThumbnailUrl := some "http://t1",
          cloudinaryThumbnailPublicId := some "thumb-1" } {}
        [{ id := "aaaaaaaaaaaaaaaaaaaaaaaa", title := "t", description := "d",
           cloudinaryVideoUrl := "http://v1",
           cloudinaryVideoPublicId := "vid-1",
           cloudinaryThumbnailUrl := "http://t1",
           cloudinaryThumbnailPublicId := "thumb-1",
           createdAt := 1 }]).mediaCalls = [⟨.video, "vid-1"⟩] ∧
    callsOfKind .image
      (updateProject ⟨fun _ _ => false, fun _ _ => none⟩
        "aaaaaaaaaaaaaaaaaaaaaaaa"
        { cloudinaryVideoUrl := some "http://v2",
          cloudinaryVideoPublicId := some "vid-2",
          cloudinaryThumbnailUrl := some "http://t1",
          cloudinaryThumbnailPublicId := some "thumb-1" } {}
        [{ id := "aaaaaaaaaaaaaaaaaaaaaaaa", title := "t", description := "d",
           cloudinaryVideoUrl := "http://v1",
           cloudinaryVideoPublicId := "vid-1",
           cloudinaryThumbnailUrl := "http://t1",
           cloudinaryThumbnailPublicId := "thumb-1",
           createdAt := 1 }]).mediaCalls = [] := by
  have h := update_mediaDelete_calls ⟨fun _ _ => false, fun _ _ => none⟩
    "aaaaaaaaaaaaaaaaaaaaaaaa"
    { cloudinaryVideoUrl := some "http://v2",
      cloudinaryVideoPublicId := some "vid-2",
      cloudinaryThumbnailUrl := some "http://t1",
      cloudinaryThumbnailPublicId := some "thumb-1" } {}
    [{ id := "aaaaaaaaaaaaaaaaaaaaaaaa", title := "t", description := "d",
       cloudinaryVideoUrl := "http://v1",
       cloudinaryVideoPublicId := "vid-1",
       cloudinaryThumbnailUrl := "http://t1",
       cloudinaryThumbnailPublicId := "thumb-1",
       createdAt := 1 }]
    { id := "aaaaaaaaaaaaaaaaaaaaaaaa", title := "t", description := "d",
      cloudinaryVideoUrl := "http://v1",
      cloudinaryVideoPublicId := "vid-1",
      cloudinaryThumbnailUrl := "http://t1",
      cloudinaryThumbnailPublicId := "thumb-1",
      createdAt := 1 }
    (by decide) rfl
  exact ⟨(h.1 (by decide) (by decide) (by decide)).1 (by decide),
    (h.2 (by decide) (by decide) (by decide) (by decide)).2 rfl⟩

theorem lookupLast_mem {asgn : List (Nat × JValue)} {i : Nat} {v : JValue}
    (h : lookupLast asgn i = some v) : (i, v) ∈ asgn := by
  induction asgn with
  | nil => simp [lookupLast] at h
  | cons hd tl ih =>
    obtain ⟨j, w⟩ := hd
    unfold lookupLast at h
    cases hrec : lookupLast tl i with
    | some u =>
      rw [hrec] at h
      cases h
      exact List.mem_cons_of_mem _ (ih hrec)
    | none =>
      rw [hrec] at h
      by_cases hj : j = i
      · rw [if_pos hj] at h
        cases h
        subst hj
        exact List.mem_cons_self _ _
      · rw [if_neg hj] at h
        cases h

theorem lookupLast_eq_none {asgn : List (Nat × JValue)} {i : Nat}
    (h : i ∉ asgn.map Prod.fst) : lookupLast asgn i = none := by
  induction asgn with
  | nil => rfl
  | cons hd tl ih =>
    obtain ⟨j, w⟩ := hd
    simp only [List.map_cons, List.mem_cons] at h
    push_neg at h
    unfold lookupLast
    rw [ih h.2]
    simp [Ne.symm h.1]

theorem lookupLast_of_mem_nodup {asgn : List (Nat × JValue)} {i : Nat}
    {v : JValue} (hnd : (asgn.map Prod.fst).Nodup) (hm : (i, v) ∈ asgn) :
    lookupLast asgn i = some v := by
  induction asgn with
  | nil => cases hm
  | cons hd tl ih =>
    obtain ⟨j, w⟩ := hd
    simp only [List.map_cons, List.nodup_cons] at hnd
    rcases List.mem_cons.mp hm with h | h
    · cases h
      have hni : i ∉ tl.map Prod.fst := hnd.1
      unfold lookupLast
      rw [lookupLast_eq_none hni, if_pos rfl]
    · have : i ∈ tl.map Prod.fst := List.mem_map_of_mem Prod.fst h
      unfold lookupLast
      rw [ih hnd.2 h]

theorem lookupLast_perm {l₁ l₂ : List (Nat × JValue)} (hp : l₁.Perm l₂)
    (hnd : (l₁.map Prod.fst).Nodup) (i : Nat) :
    lookupLast l₁ i = lookupLast l₂ i := by
  have hnd₂ : (l₂.map Prod.fst).Nodup := ((hp.map Prod.fst).nodup_iff).mp hnd
  cases h : lookupLast l₁ i with
  | some v =>
    exact (lookupLast_of_mem_nodup hnd₂ (hp.mem_iff.mp (lookupLast_mem h))).symm
  | none =>
    have hni : i ∉ l₁.map Prod.fst := by
      intro hc
      obtain ⟨p, hpmem, hpf⟩ := List.mem_map.mp hc
      obtain ⟨j, w⟩ := p
      cases hpf
      rw [lookupLast_of_mem_nodup hnd hpmem] at h
      cases h
    have : i ∉ l₂.map Prod.fst := fun hc =>
      hni (((hp.map Prod.fst).mem_iff).mpr hc)
    exact (lookupLast_eq_none this).symm

theorem sparseToList_perm {l₁ l₂ : List (Nat × JValue)} (hp : l₁.Perm l₂)
    (hnd : (l₁.map Prod.fst).Nodup) : sparseToList l₁ = sparseToList l₂ := by
  unfold sparseToList
  have hidx : ((l₁.map Prod.fst).dedup).insertionSort (· ≤ ·) =
      ((l₂.map Prod.fst).dedup).insertionSort (· ≤ ·) := by
    have hpi : List.Perm (((l₁.map Prod.fst).dedup).insertionSort (· ≤ ·))
        (((l₂.map Prod.fst).dedup).insertionSort (· ≤ ·)) :=
      (List.perm_insertionSort _ _).trans
        (((hp.map Prod.fst).dedup).trans
          (List.perm_insertionSort _ _).symm)
    exact List.eq_of_perm_of_sorted hpi
      (List.sorted_insertionSort _ _) (List.sorted_insertionSort _ _)
  rw [hidx]
  exact List.filterMap_congr fun i _ => lookupLast_perm hp hnd i

theorem reconstructArray_perm {l₁ l₂ : List (Nat × JValue)} (hp : l₁.Perm l₂)
    (hnd : (l₁.map Prod.fst).Nodup) :
    reconstructArray l₁ = reconstructArray l₂ := by
  unfold reconstructArray
  rw [sparseToList_perm hp hnd]

theorem orderedInsert_map_fst (a : Nat × JValue) (l : List (Nat × JValue)) :
    (List.orderedInsert (fun x y => x.fst ≤ y.fst) a l).map Prod.fst =
      List.orderedInsert (· ≤ ·) a.fst (l.map Prod.fst) := by
  induction l with
  | nil => rfl
  | cons b t ih =>
    by_cases h : a.fst ≤ b.fst <;>
      simp [List.orderedInsert, h, ih]

theorem insertionSort_map_fst (l : List (Nat × JValue)) :
    (l.insertionSort (fun x y => x.fst ≤ y.fst)).map Prod.fst =
      (l.map Prod.fst).insertionSort (· ≤ ·) := by
  induction l with
  | nil => rfl
  | cons a t ih =>
    simp [List.insertionSort, orderedInsert_map_fst, ih]

theorem filterMap_eq_map_of_some {α β : Type} {f : α → Option β} {g : α → β}
    {l : List α} (h : ∀ a ∈ l, f a = some (g a)) :
    l.filterMap f = l.map g := by
  induction l with
  | nil => rfl
  | cons a t ih =>
    rw [List.filterMap_cons, h a (List.mem_cons_self a t), List.map_cons,
      ih fun x hx => h x (List.mem_cons_of_mem a hx)]

theorem reconstructArray_sorted (asgn : List (Nat × JValue))
    (hnd : (asgn.map Prod.fst).Nodup)
    (htr : ∀ p ∈ asgn, JValue.truthy p.snd = true) :
    reconstructArray asgn =
      (asgn.insertionSort (fun x y => x.fst ≤ y.fst)).map Prod.snd := by
  unfold reconstructArray sparseToList
  rw [List.dedup_eq_self.mpr hnd, ← insertionSort_map_fst,
    List.filterMap_map]
  have hsort : ∀ p ∈ asgn.insertionSort (fun x y => x.fst ≤ y.fst),
      (lookupLast asgn ∘ Prod.fst) p = some (Prod.snd p) := by
    intro p hpmem
    obtain ⟨i, v⟩ := p
    exact lookupLast_of_mem_nodup hnd
      ((List.perm_insertionSort _ asgn).mem_iff.mp hpmem)
  rw [filterMap_eq_map_of_some hsort]
  refine List.filter_eq_self.mpr ?_
  intro v hv
  obtain ⟨p, hpmem, hpv⟩ := List.mem_map.mp hv
  subst hpv
  exact htr p ((List.perm_insertionSort _ asgn).mem_iff.mp hpmem)

/-- C5: the indexed-array reconstruction is invariant under reordering of the
body keys (distinct indices assumed, as object keys are distinct); the result
lists the last-assigned values in increasing index order (sparse indices are
simply absent, and all-truthy values are all kept); concrete instances:
`features[1]=a` with `features[0]=b` yields `["b","a"]` in either key order,
sparse indices 0 and 5 yield the two values in index order, and a `features`
string value is JSON-parsed with a singleton-list fallback on parse failure. -/
theorem features_reconstruction :
    (∀ (b : ReqBody) (e₁ e₂ : List (String × JValue)), List.Perm e₁ e₂ →
      ((featAssignments e₁).map Prod.fst).Nodup →
      (normalizeBody { b with extra := e₁ }).features =
        (normalizeBody { b with extra := e₂ }).features) ∧
    (∀ asgn : List (Nat × JValue), (asgn.map Prod.fst).Nodup →
      (∀ p ∈ asgn, JValue.truthy p.snd = true) →
      reconstructArray asgn =
        (asgn.insertionSort (fun x y => x.fst ≤ y.fst)).map Prod.snd) ∧
    (normalizeBody { extra := [("features[1]", JValue.jstr "a"),
        ("features[0]", JValue.jstr "b")] }).features =
      some (.jarr [.jstr "b", .jstr "a"]) ∧
    (normalizeBody { extra := [("features[0]", JValue.jstr "b"),
        ("features[1]", JValue.jstr "a")] }).features =
      some (.jarr [.jstr "b", .jstr "a"]) ∧
    (normalizeBody { extra := [("features[0]", JValue.jstr "x"),
        ("features[5]", JValue.jstr "y")] }).features =
      some (.jarr [.jstr "x", .jstr "y"]) ∧
    (normalizeBody { extra := [("tools[2]", JValue.jstr "t2"),
        ("tools[0]", JValue.jstr "t0")] }).tools =
      some (.jarr [.jstr "t0", .jstr "t2"]) ∧
    (normalizeBody { features := some (.jstr "[\"a\",\"b\"]") }).features =
      some (.jarr [.jstr "a", .jstr "b"]) ∧
    (normalizeBody { features := some (.jstr "three js") }).features =
      some (.jarr [.jstr "three js"]) := by
  refine ⟨?_, reconstructArray_sorted, by rfl, by rfl, by rfl, by rfl, by rfl, by rfl⟩
  intro b e₁ e₂ hp hnd
  have hfp : List.Perm (featAssignments e₁) (featAssignments e₂) :=
    hp.filterMap _
  by_cases h1 : featAssignments e₁ = []
  · have h2 : featAssignments e₂ = [] := by
      have hl := hfp.length_eq
      rw [h1] at hl
      exact List.length_eq_zero.mp hl.symm
    simp [normalizeBody, h1, h2, apply_ite]
  · have h2 : featAssignments e₂ ≠ [] := by
      intro hc
      apply h1
      have hl := hfp.length_eq
      rw [hc] at hl
      exact List.length_eq_zero.mp hl
    have hre := reconstructArray_perm hfp hnd
    simp [normalizeBody, List.isEmpty_iff, h1, h2, hre, apply_ite]

/-- C5 witness at concrete inputs: the two key orders of the example yield
the same reconstruction, and a sparse all-truthy assignment equals its
index-sorted value list. -/
theorem features_reconstruction_witness :
    (normalizeBody { extra := [("features[1]", JValue.jstr "a"),
        ("features[0]", JValue.jstr "b")] } : ReqBody).features =
      (normalizeBody { extra := [("features[0]", JValue.jstr "b"),
        ("features[1]", JValue.jstr "a")] } : ReqBody).features ∧
    reconstructArray [(0, JValue.jstr "x"), (5, JValue.jstr "y")] =
      (([(0, JValue.jstr "x"), (5, JValue.jstr "y")]).insertionSort
        (fun x y => x.fst ≤ y.fst)).map Prod.snd := by
  constructor
  · exact features_reconstruction.1 {} _ _ (List.Perm.swap _ _ _) (by decide)
  · exact features_reconstruction.2.1 _ (by decide) (by decide)

/-- C9: the reconstruction's `filter(Boolean)` keeps only truthy values —
every element of a reconstructed list is truthy — and in particular an
indexed field submitted as the empty string is silently dropped rather than
kept. -/
theorem falsy_entries_dropped :
    (∀ (asgn : List (Nat × JValue)) (v : JValue),
      v ∈ reconstructArray asgn → JValue.truthy v = true) ∧
    (normalizeBody { extra := [("features[0]", JValue.jstr ""),
        ("features[1]", JValue.jstr "a")] } : ReqBody).features =
      some (.jarr [.jstr "a"]) := by
  constructor
  · intro asgn v hv
    exact List.of_mem_filter hv
  · rfl

/-- C9 witness at a concrete input: the surviving element of a reconstructed
list is truthy. -/
theorem falsy_entries_dropped_witness :
    JValue.truthy (JValue.jstr "a") = true :=
  falsy_entries_dropped.1 [(0, JValue.jstr "a")] (JValue.jstr "a")
    (List.Mem.head _)

theorem recentArgs_append {A : Type} (l₁ l₂ : List (ThrEvent A))
    (a : Option A) : recentArgs (l₁ ++ l₂) a = recentArgs l₂ (recentArgs l₁ a) := by
  induction l₁ generalizing a with
  | nil => rfl
  | cons e rest ih =>
    cases e <;> simp [recentArgs, ih]

theorem throttleStep_call_lastArgs {A : Type} (limit : Int) (s : ThrState A)
    (t : Int) (args : A) :
    (throttleStep limit s (.call t args)).fst.lastArgs = some args := by
  unfold throttleStep
  dsimp only
  repeat' split
  all_goals simp

theorem throttleStep_fire_lastArgs {A : Type} (limit : Int) (s : ThrState A)
    (id : Nat) (t : Int) :
    (throttleStep limit s (.fire id t)).fst.lastArgs = s.lastArgs := by
  unfold throttleStep
  dsimp only
  split <;> rfl

theorem throttleRun_lastArgs {A : Type} (limit : Int) (s : ThrState A)
    (tr : List (ThrEvent A)) :
    (throttleRun limit s tr).fst.lastArgs = recentArgs tr s.lastArgs := by
  induction tr generalizing s with
  | nil => rfl
  | cons e rest ih =>
    show (throttleRun limit (throttleStep limit s e).fst rest).fst.lastArgs = _
    rw [ih]
    cases e with
    | call t args =>
      rw [throttleStep_call_lastArgs]
      rfl
    | fire id t =>
      rw [throttleStep_fire_lastArgs]
      rfl

theorem throttleStep_inv {A : Type} (limit : Int) (s : ThrState A)
    (e : ThrEvent A) (h : ThrInv s) : ThrInv (throttleStep limit s e).fst := by
  cases e with
  | call t args =>
    unfold throttleStep
    dsimp only
    split
    · -- immediate execution: any pending timer is cleared
      rcases h with ⟨hid, ht⟩ | ⟨i, d, hid, hts⟩
      · simp only [hid]
        exact Or.inl ⟨rfl, ht⟩
      · simp only [hid]
        refine Or.inl ⟨rfl, ?_⟩
        rw [hts]
        simp
    · -- within the window: schedule only when no timer is pending
      rcases h with ⟨hid, ht⟩ | ⟨i, d, hid, hts⟩
      · simp only [hid]
        exact Or.inr ⟨s.nextId, t + (limit - (t - s.lastCall)), rfl,
          by rw [ht]; rfl⟩
      · simp only [hid]
        exact Or.inr ⟨i, d, rfl, hts⟩
  | fire id t =>
    unfold throttleStep
    dsimp only
    split
    · rcases h with ⟨hid, ht⟩ | ⟨i, d, hid, hts⟩
      · exact Or.inl ⟨rfl, by rw [ht]; rfl⟩
      · refine Or.inl ⟨rfl, ?_⟩
        rename_i hfind
        rw [hts]
        rw [hts] at hfind
        by_cases hii : i = id
        · subst hii
          simp
        · simp [List.find?, hii] at hfind
    · exact h

theorem throttleRun_inv {A : Type} (limit : Int) (s : ThrState A)
    (tr : List (ThrEvent A)) (h : ThrInv s) :
    ThrInv (throttleRun limit s tr).fst := by
  induction tr generalizing s with
  | nil => exact h
  | cons e rest ih =>
    exact ih (throttleStep limit s e).fst (throttleStep_inv limit s e h)

theorem throttleStep_call_out {A : Type} (limit : Int) (s : ThrState A)
    (t : Int) (args : A) :
    ∀ a ∈ (throttleStep limit s (.call t args)).snd, a = some args := by
  unfold throttleStep
  dsimp only
  repeat' split
  all_goals simp

theorem throttleStep_fire_out {A : Type} (limit : Int) (s : ThrState A)
    (id : Nat) (t : Int) :
    ∀ a ∈ (throttleStep limit s (.fire id t)).snd, a = s.lastArgs := by
  unfold throttleStep
  dsimp only
  split
  all_goals simp

/-- C10: for every event sequence of a throttled function, (1) at most one
trailing timer is pending at any time; (2) every performed invocation —
immediate or trailing — carries the arguments of the most recent call at
that point; (3) a call always overwrites the stored arguments; (4) the
first call of a quiet period (at least `limit` since `lastCall`) executes
immediately with its own arguments. -/
theorem throttle_spec {A : Type} (limit : Int) :
    (∀ tr : List (ThrEvent A),
      (throttleRun limit (ThrState.init A) tr).fst.timers.length ≤ 1) ∧
    (∀ (pre : List (ThrEvent A)) (e : ThrEvent A) (a : Option A),
      a ∈ (throttleStep limit
        (throttleRun limit (ThrState.init A) pre).fst e).snd →
      a = recentArgs (pre ++ [e]) none) ∧
    (∀ (s : ThrState A) (t : Int) (args : A),
      (throttleStep limit s (.call t args)).fst.lastArgs = some args) ∧
    (∀ (s : ThrState A) (t : Int) (args : A), limit ≤ t - s.lastCall →
      (throttleStep limit s (.call t args)).snd = [some args]) := by
  refine ⟨?_, ?_, throttleStep_call_lastArgs limit, ?_⟩
  · intro tr
    have hinv := throttleRun_inv limit (ThrState.init A) tr
      (Or.inl ⟨rfl, rfl⟩)
    rcases hinv with ⟨_, ht⟩ | ⟨i, d, _, ht⟩ <;> rw [ht] <;> simp
  · intro pre e a ha
    rw [recentArgs_append]
    cases e with
    | call t args =>
      rw [throttleStep_call_out limit _ t args a ha]
      rfl
    | fire id t =>
      rw [throttleStep_fire_out limit _ id t a ha,
        throttleRun_lastArgs limit (ThrState.init A) pre]
      rfl
  · intro s t args h
    unfold throttleStep
    dsimp only
    rw [if_pos (Or.inl (by omega))]

/-- C10 witness at concrete inputs: a two-call trace leaves at most one
pending timer, the trailing fire uses the latest call's arguments, and a
call past the window executes immediately. -/
theorem throttle_spec_witness :
    (throttleRun 100 (ThrState.init Nat)
      [ThrEvent.call 1000 7, ThrEvent.call 1050 8]).fst.timers.length ≤ 1 ∧
    some 8 = recentArgs ([ThrEvent.call 1000 7, ThrEvent.call 1050 8] ++
      [ThrEvent.fire 0 1100]) (none : Option Nat) ∧
    (throttleStep 100 (ThrState.init Nat) (ThrEvent.call 1000 7)).snd =
      [some 7] := by
  refine ⟨(throttle_spec 100).1 [ThrEvent.call 1000 7, ThrEvent.call 1050 8],
    ?_, (throttle_spec 100).2.2.2 (ThrState.init Nat) 1000 7 (by decide)⟩
  exact ((throttle_spec 100).2.1 [ThrEvent.call 1000 7, ThrEvent.call 1050 8]
    (ThrEvent.fire 0 1100) (some 8) (by decide)).symm
